import Mathlib

/-
Shallow embedding of the composition-aware input controller
(src/components/editor/editor.tsx) and of the local-edit persistence layer
(src/libs/web/api/note.ts, useEditor).  Definitions are translated from the
TypeScript source; theorems settle the claims of the specification.

Modelling conventions:
* React `useState` / `useRef` cells become fields of an explicit state record;
  the model treats state-setter calls as synchronous field updates.
* `Date.now()` timestamps are naturals supplied with each event.
* The ProseMirror document is modelled as a string with the selection at its
  end; `state.doc.textBetween(from-1, from)` is the last character, and
  `dispatch(tr.insertText('/'))` appends and bumps a ghost `inserts` counter
  that counts exactly the `insertText` dispatches the source performs.
* `requestAnimationFrame` continuations that re-check the same state and then
  run to completion before any further event are folded into the handler that
  scheduled them (the re-checked condition is evaluated on the same state).
-/

namespace Jjt

/-- State of the editor component: the `isComposing` React state plus the
refs `pendingChars`, `isEditorLocked`, `needsSpecialCharHandling`,
`lastCompositionEndTime`, `lastKeyPressTime`, and the document model. -/
structure EditorSt where
  isComposing : Bool
  pendingChars : String
  isEditorLocked : Bool
  needsSpecialCharHandling : Bool
  lastCompositionEndTime : Nat
  lastKeyPressTime : Nat
  doc : String
  inserts : Nat
deriving Repr, DecidableEq

/-- Initial state of a freshly mounted editor. -/
def editorInit : EditorSt :=
  { isComposing := false, pendingChars := "", isEditorLocked := false,
    needsSpecialCharHandling := false, lastCompositionEndTime := 0,
    lastKeyPressTime := 0, doc := "", inserts := 0 }

/-- The character before the selection: `doc.textBetween(max(0, from-1), from)`
with the selection at the end of the document. -/
def textBefore (doc : String) : String :=
  match doc.toList.getLast? with
  | some c => String.mk [c]
  | none => ""

/-- Drop the last character: `s.slice(0, -1)`. -/
def dropLastStr (s : String) : String :=
  String.mk s.toList.dropLast

/-- Character membership `s.includes(c)`, computed on the character list. -/
def containsChar (s : String) (c : Char) : Bool :=
  s.toList.contains c

/-- Lexicographic strict order on character lists, the order JavaScript uses
to compare the ASCII key strings of `handleKeyDown`. -/
def strLtB : List Char → List Char → Bool
  | [], [] => false
  | [], _ :: _ => true
  | _ :: _, [] => false
  | a :: as, b :: bs =>
    if a < b then true else if b < a then false else strLtB as bs

/-- JavaScript string comparison `a <= b`. -/
def jsLe (a b : String) : Bool :=
  !(strLtB b.toList a.toList)

/-- The fixed Markdown trigger set `specialChars` of `handleKeyDown`
(editor.tsx line 340); the backquote is written with an escape. -/
def specialKeys : List String :=
  ["/", "#", "*", ">", "\x60", "-", "+", "=", "[", "]", "(", ")", "!", "@"]

/-- Translation of `handleMarkdownCommand` (editor.tsx lines 58-102): for `/`
it inserts a slash at the selection unless the character before the selection
is already a slash; for `*` and `**` it only dispatches a no-op refresh; all
other commands do nothing.  The `inserts` counter records each
`insertText` dispatch. -/
def handleMarkdownCommand (st : EditorSt) (command : String) : EditorSt :=
  if command = "/" then
    if textBefore st.doc ≠ "/" then
      { st with doc := st.doc ++ "/", inserts := st.inserts + 1 }
    else st
  else st

/-- Translation of `handleCompositionStart` (editor.tsx lines 105-114). -/
def handleCompositionStart (st : EditorSt) : EditorSt :=
  { st with isComposing := true, pendingChars := "", isEditorLocked := true,
            needsSpecialCharHandling := false }

/-- Translation of `handleCompositionEnd` (editor.tsx lines 116-173): records
the end time, flags pending special characters (cancelling them when a slash
was captured but the document already ends in a slash), clears the composing
flag and unlocks the editor (the deferred frame callback re-asserts the
unlock on the same state). -/
def handleCompositionEnd (st0 : EditorSt) (now : Nat) : EditorSt :=
  let st := { st0 with lastCompositionEndTime := now }
  let st :=
    if st.pendingChars ≠ "" then
      let st := { st with needsSpecialCharHandling := true }
      if containsChar st.pendingChars '/' && decide (textBefore st.doc = "/") then
        { st with needsSpecialCharHandling := false, pendingChars := "" }
      else st
    else st
  { st with isComposing := false, isEditorLocked := false }

/-- Dispatch of the captured buffer to `handleMarkdownCommand`, shared by the
`handleInput` listener (editor.tsx lines 201-224) and the mutation observer:
the first matching trigger among `/`, `*`, `#` is replayed. -/
def processPendingChars (st : EditorSt) : EditorSt :=
  if containsChar st.pendingChars '/' then handleMarkdownCommand st "/"
  else if containsChar st.pendingChars '*' then handleMarkdownCommand st "*"
  else if containsChar st.pendingChars '#' then handleMarkdownCommand st "#"
  else st

/-- Force-unlock step `if (isEditorLocked.current) isEditorLocked.current =
false` at the end of the `handleInput` listener (editor.tsx lines 232-235). -/
def unlockIfLocked (st : EditorSt) : EditorSt :=
  if st.isEditorLocked then { st with isEditorLocked := false } else st

/-- Translation of the `handleInput` listener (editor.tsx lines 188-236): when
special-character handling is pending it runs `handleMarkdownCommand` for the
first matching trigger among `/`, `*`, `#` and resets the pending state (the
sub-100ms branch defers this through a frame callback that re-checks the same
condition on the same state), then force-unlocks the editor. -/
def handleInput (st0 : EditorSt) (_now : Nat) : EditorSt :=
  let st :=
    if st0.needsSpecialCharHandling && st0.pendingChars ≠ "" then
      { processPendingChars st0 with needsSpecialCharHandling := false,
                                     pendingChars := "" }
    else st0
  unlockIfLocked st

/-- Translation of the `MutationObserver` callback (editor.tsx lines 242-301):
skips when nothing is pending, when no text change occurred, or when the
mutation follows the composition end or the last key press by less than 50ms;
otherwise it replays the first matching trigger (with the duplicate-slash
check) and resets the pending state. -/
def observerCallback (st : EditorSt) (now : Nat) (hasTextChange : Bool) :
    EditorSt :=
  if !st.needsSpecialCharHandling then st
  else if !hasTextChange then st
  else if now - st.lastCompositionEndTime < 50 ||
          now - st.lastKeyPressTime < 50 then st
  else if containsChar st.pendingChars '/' then
    if textBefore st.doc = "/" then
      { st with needsSpecialCharHandling := false, pendingChars := "" }
    else
      let st1 := handleMarkdownCommand st "/"
      { st1 with needsSpecialCharHandling := false, pendingChars := "" }
  else if containsChar st.pendingChars '*' then
    let st1 := handleMarkdownCommand st "*"
    { st1 with needsSpecialCharHandling := false, pendingChars := "" }
  else if containsChar st.pendingChars '#' then
    let st1 := handleMarkdownCommand st "#"
    { st1 with needsSpecialCharHandling := false, pendingChars := "" }
  else { st with needsSpecialCharHandling := false, pendingChars := "" }

/-- Translation of the recurring `safetyTimer` body (editor.tsx lines
314-320): if the editor is locked while the composing flag is off, force the
unlock.  Nothing else is touched. -/
def safetyTick (st : EditorSt) : EditorSt :=
  if st.isEditorLocked && !st.isComposing then
    { st with isEditorLocked := false }
  else st

/-- Result of `handleKeyDown`: the updated state and whether
`preventDefault` was called. -/
structure KeyOut where
  st : EditorSt
  prevented : Bool
deriving Repr, DecidableEq

/-- Translation of `handleKeyDown` (editor.tsx lines 338-451).  The branches
in source order: record the key-press time; let digit keys 1-9 through while
composing (candidate selection); let Enter through while natively composing;
force-unlock on Enter or Backspace when locked outside composition; drop the
last buffered character on Backspace while composing with a non-empty buffer
(without preventing the default); intercept trigger characters while
composing (append to the buffer, prevent the default, and for `/` set the
pending flag); outside composition prevent a duplicate slash. -/
def handleKeyDown (st0 : EditorSt) (key : String) (nativeComposing : Bool)
    (now : Nat) : KeyOut :=
  let st := { st0 with lastKeyPressTime := now }
  if (st.isComposing || nativeComposing) && jsLe "1" key &&
      jsLe key "9" then
    ⟨st, false⟩
  else if key = "Enter" && nativeComposing then
    ⟨st, false⟩
  else if key = "Enter" && st.isEditorLocked && !st.isComposing &&
      !nativeComposing then
    ⟨{ st with isEditorLocked := false }, false⟩
  else if key = "Backspace" && st.isEditorLocked && !st.isComposing &&
      !nativeComposing then
    ⟨{ st with isEditorLocked := false }, false⟩
  else if key = "Backspace" && (st.isComposing || nativeComposing) &&
      st.pendingChars.length > 0 then
    ⟨{ st with pendingChars := dropLastStr st.pendingChars }, false⟩
  else if (st.isComposing || nativeComposing) && specialKeys.contains key then
    let st1 := { st with pendingChars := st.pendingChars ++ key }
    if key = "/" then
      ⟨{ st1 with needsSpecialCharHandling := true,
                  lastKeyPressTime := now }, true⟩
    else
      ⟨st1, true⟩
  else if !st.isComposing && !nativeComposing && key = "/" then
    let st1 := { st with isEditorLocked := false }
    if textBefore st1.doc = "/" then ⟨st1, true⟩ else ⟨st1, false⟩
  else
    ⟨st, false⟩

/-- Disposition of a `handleEditorChange` notification: dropped outright,
deferred to a frame callback that re-runs `onEditorChange`, or forwarded
immediately. -/
inductive ChangeDisposition
  | dropped
  | deferredFrame
  | immediate
deriving Repr, DecidableEq

/-- Translation of `handleEditorChange` (editor.tsx lines 454-498): mid
composition the notification is dropped; within 100ms of a composition end,
or while special-character handling is pending, it is deferred to a frame
callback; otherwise `onEditorChange` runs immediately. -/
def handleEditorChange (st : EditorSt) (now : Nat) : ChangeDisposition :=
  if st.isComposing then ChangeDisposition.dropped
  else if now - st.lastCompositionEndTime < 100 then
    ChangeDisposition.deferredFrame
  else if st.needsSpecialCharHandling then ChangeDisposition.deferredFrame
  else ChangeDisposition.immediate

/-- Events the editor component reacts to. -/
inductive EditorEv
  | compStart
  | compEnd (now : Nat)
  | input (now : Nat)
  | mutation (now : Nat) (hasTextChange : Bool)
  | keyDown (key : String) (nativeComposing : Bool) (now : Nat)
  | tick
deriving Repr, DecidableEq

/-- One step of the editor component. -/
def editorStep (st : EditorSt) : EditorEv → EditorSt
  | EditorEv.compStart => handleCompositionStart st
  | EditorEv.compEnd now => handleCompositionEnd st now
  | EditorEv.input now => handleInput st now
  | EditorEv.mutation now h => observerCallback st now h
  | EditorEv.keyDown k n now => (handleKeyDown st k n now).st
  | EditorEv.tick => safetyTick st

/-- Run the editor over a sequence of events. -/
def runEditor (st : EditorSt) (evs : List EditorEv) : EditorSt :=
  evs.foldl editorStep st

/-
Model of the persistence layer of `useEditor` (src/libs/web/api/note.ts).
`localStorage` is an association list whose `setItem` prepends (lookup finds
the newest binding) and whose `removeItem` filters every binding of the key.
-/

/-- The active note as `useEditor` sees it: `note?.id` may be absent, and an
empty id is falsy in the guards `if (note.id)` / `if (!note?.id)`. -/
structure NoteRec where
  id : Option String
  content : String
  title : String
deriving Repr, DecidableEq

/-- Truthiness of `note?.id` in the source's guards. -/
def jsTruthy : Option String → Bool
  | none => false
  | some s => s ≠ ""

/-- Durable local mirror (`localStorage`). -/
abbrev Store := List (String × String)

/-- Lookup: `localStorage.getItem`. -/
def storeGet (s : Store) (k : String) : Option String :=
  s.lookup k

/-- Write: `localStorage.setItem` (newest binding first). -/
def storeSet (s : Store) (k v : String) : Store :=
  (k, v) :: s

/-- Delete: `localStorage.removeItem`. -/
def storeRemove (s : Store) (k : String) : Store :=
  s.filter (fun p => p.1 ≠ k)

/-- Mirror key for a note's content: backtick template
`note_content_(noteId)` in the source. -/
def contentKey (id : String) : String :=
  "note_content_" ++ id

/-- Mirror key for a note's title: `note_title_(noteId)`. -/
def titleKey (id : String) : String :=
  "note_title_" ++ id

/-- State of the `useEditor` session: the active note, the local draft
(`localContent`, `localTitle`), the dirty flag `hasLocalChanges`, and the
durable mirror. -/
structure SessionSt where
  note : Option NoteRec
  localContent : String
  localTitle : String
  hasLocalChanges : Bool
  store : Store
deriving Repr, DecidableEq

/-- Translation of the initialisation effect of `useEditor` (note.ts lines
458-480): load the server content and title, clear the dirty flag, then for
a truthy note id prefer a mirror entry that is truthy (non-empty) and
differs from the server value, marking the session dirty. -/
def initLocalContent (st0 : SessionSt) : SessionSt :=
  match st0.note with
  | none => st0
  | some n =>
    let st := { st0 with localContent := n.content, localTitle := n.title,
                         hasLocalChanges := false }
    if jsTruthy n.id then
      let id := n.id.getD ""
      let st :=
        match storeGet st.store (contentKey id) with
        | some saved =>
          if saved ≠ "" && saved ≠ n.content then
            { st with localContent := saved, hasLocalChanges := true }
          else st
        | none => st
      match storeGet st.store (titleKey id) with
      | some savedT =>
        if savedT ≠ "" && savedT ≠ n.title then
          { st with localTitle := savedT, hasLocalChanges := true }
        else st
      | none => st
    else st

/-- Translation of `onEditorChange` (note.ts lines 591-604): update the local
draft, set the dirty flag, and mirror the content to `localStorage` when the
note id is truthy. -/
def onEditorChange (st : SessionSt) (newContent : String) : SessionSt :=
  let st1 := { st with localContent := newContent, hasLocalChanges := true }
  match st1.note with
  | some n =>
    if jsTruthy n.id then
      { st1 with store := storeSet st1.store (contentKey (n.id.getD ""))
                                   newContent }
    else st1
  | none => st1

/-- Observable effects of the save path. -/
inductive SaveEff
  | persistCreate (content title : String)
  | persistUpdate (content title : String)
  | toastError
  | toastSuccess
  | toastRetryExhausted
  | refreshTree
  | sleepMs (ms : Nat)
deriving Repr, DecidableEq

/-- Result of an `async` call as its caller observes it: a returned value or
a thrown exception. -/
inductive SaveRes
  | ok (b : Bool)
  | thrown
deriving Repr, DecidableEq

/-- Environment of a save: whether the route carries the `new` marker and
whether the persistence call (`createNote` / `updateNote`) completes without
throwing. -/
structure SaveEnv where
  isNew : Bool
  persistOk : Bool
deriving Repr, DecidableEq

/-- Translation of `saveNote` (note.ts lines 622-680): bail out with `false`
and no effect when `note?.id` is falsy; otherwise issue the create or update
persistence call with the local draft.  The whole body is wrapped in
try/catch: a throwing persistence call is caught, surfaces the error toast,
and returns `false` with the state untouched; on success the dirty flag is
cleared, both mirror entries are removed, the tree is refreshed and the
success toast is shown. -/
def saveNote (st : SessionSt) (env : SaveEnv) :
    SaveRes × SessionSt × List SaveEff :=
  match st.note with
  | none => (SaveRes.ok false, st, [])
  | some n =>
    if !jsTruthy n.id then (SaveRes.ok false, st, [])
    else
      let persistEff :=
        if env.isNew then SaveEff.persistCreate st.localContent st.localTitle
        else SaveEff.persistUpdate st.localContent st.localTitle
      if !env.persistOk then
        (SaveRes.ok false, st, [persistEff, SaveEff.toastError])
      else
        let id := n.id.getD ""
        let st1 :=
          { st with hasLocalChanges := false,
                    store := storeRemove
                      (storeRemove st.store (contentKey id)) (titleKey id) }
        (SaveRes.ok true, st1,
         [persistEff, SaveEff.refreshTree, SaveEff.toastSuccess])

/-- Translation of `saveNoteWithRetry` (note.ts lines 683-699): a loop of
`retryCount` iterations (fuel counts the iterations still to run, so the
last loop iteration `i = retryCount - 1` is fuel `1`).  Each iteration
awaits `saveNote`, returning `true` on a truthy result; a thrown exception
is caught, and either surfaces the retries-exhausted toast on the last
iteration or sleeps 1000ms before the next attempt.  `saveNote` only ever
returns (its body is wrapped in try/catch), so the catch arm is dead code:
see `saveNote_never_thrown`. -/
def saveNoteWithRetry (st : SessionSt) (env : SaveEnv) :
    Nat → Bool × SessionSt × List SaveEff
  | 0 => (false, st, [])
  | Nat.succ k =>
    let r := saveNote st env
    match r.1 with
    | SaveRes.ok true => (true, r.2.1, r.2.2)
    | SaveRes.ok false =>
      let rest := saveNoteWithRetry r.2.1 env k
      (rest.1, rest.2.1, r.2.2 ++ rest.2.2)
    | SaveRes.thrown =>
      if k = 0 then
        (false, r.2.1, r.2.2 ++ [SaveEff.toastRetryExhausted])
      else
        let rest := saveNoteWithRetry r.2.1 env k
        (rest.1, rest.2.1,
         r.2.2 ++ [SaveEff.sleepMs 1000] ++ rest.2.2)

/-- Count of persistence calls among observed effects. -/
def persistCount (effs : List SaveEff) : Nat :=
  effs.countP (fun e =>
    match e with
    | SaveEff.persistCreate _ _ => true
    | SaveEff.persistUpdate _ _ => true
    | _ => false)

/-- Count of backoff sleeps among observed effects. -/
def sleepCount (effs : List SaveEff) : Nat :=
  effs.countP (fun e =>
    match e with
    | SaveEff.sleepMs _ => true
    | _ => false)

/-- Count of error toasts among observed effects. -/
def errToastCount (effs : List SaveEff) : Nat :=
  effs.countP (fun e =>
    match e with
    | SaveEff.toastError => true
    | _ => false)

/-- Count of retries-exhausted toasts among observed effects. -/
def exhaustedToastCount (effs : List SaveEff) : Nat :=
  effs.countP (fun e =>
    match e with
    | SaveEff.toastRetryExhausted => true
    | _ => false)

/-- Modelled from the spec: the trailing-edge debounce timer of
`useDebouncedCallback(fn, 500)` (the `use-debounce` package, whose
implementation is not under src).  Per the spec, each call while already
debouncing restarts the fixed window and stores the latest data; the stored
call runs only when a full quiet window elapses, so a run is emitted for a
call exactly when no further call arrives within the window. -/
def debouncedRuns (window : Nat) : List (Nat × String) → List String
  | [] => []
  | [(_, d)] => [d]
  | (t1, d1) :: (t2, d2) :: rest =>
    if t2 < t1 + window then debouncedRuns window ((t2, d2) :: rest)
    else d1 :: debouncedRuns window ((t2, d2) :: rest)

/-- Truthiness of the guard `!note?.id` over the whole session state. -/
def activeNoteIdFalsy (st : SessionSt) : Bool :=
  match st.note with
  | none => true
  | some n => !jsTruthy n.id

/-
Concrete states used by counterexamples and witnesses.
-/

/-- Editor state in the middle of a composition with a captured slash. -/
def composingSt : EditorSt :=
  { editorInit with isComposing := true, isEditorLocked := true,
                    pendingChars := "/" }

/-- Editor state that is locked while no composition is tracked, with a
captured slash still buffered. -/
def watchSt : EditorSt :=
  { editorInit with isEditorLocked := true, pendingChars := "/" }

/-- Editor state in a composition during which a `#` was captured. -/
def hashSt : EditorSt :=
  { editorInit with isComposing := true, isEditorLocked := true,
                    pendingChars := "#", doc := "abc" }

/-- Editor state with a slash replay pending after a composition end. -/
def replaySt : EditorSt :=
  { editorInit with needsSpecialCharHandling := true, pendingChars := "/",
                    doc := "ab" }

/-- A persisted note as the session sees it. -/
def noteRec1 : NoteRec :=
  { id := some "n1", content := "hello", title := "t" }

/-- Session on `noteRec1` with an unsaved draft. -/
def saveSt : SessionSt :=
  { note := some noteRec1, localContent := "draft", localTitle := "t2",
    hasLocalChanges := true, store := [] }

/-- Session on `noteRec1` that is clean and matches the server state. -/
def mirrorSt : SessionSt :=
  { note := some noteRec1, localContent := "hello", localTitle := "t",
    hasLocalChanges := false, store := [] }

/-- Session whose active note is absent. -/
def noNoteSt : SessionSt :=
  { note := none, localContent := "x", localTitle := "y",
    hasLocalChanges := true, store := [] }

/-- Environment whose persistence call always throws. -/
def failEnv : SaveEnv := { isNew := false, persistOk := false }

/-- Environment whose persistence call succeeds. -/
def okEnv : SaveEnv := { isNew := false, persistOk := true }

/-
Helper lemmas shared by the claim theorems.
-/

theorem length_pos_of_ne_empty (s : String) (h : s ≠ "") : 0 < s.length := by
  cases s with
  | mk data =>
    cases data with
    | nil => exact absurd rfl h
    | cons a as => simp [String.length]

theorem ne_self_append (s k : String) (hk : k ≠ "") : s ≠ s ++ k := by
  intro h
  have h2 := congrArg String.length h
  rw [String.length_append] at h2
  have h3 := length_pos_of_ne_empty k hk
  omega

theorem cmd_not_slash (st : EditorSt) (c : String) (h : c ≠ "/") :
    handleMarkdownCommand st c = st := by
  simp [handleMarkdownCommand, h]

theorem observer_skip (st : EditorSt) (now : Nat) (ht : Bool)
    (h : st.needsSpecialCharHandling = false) :
    observerCallback st now ht = st := by
  simp [observerCallback, h]

theorem unlock_fields (s : EditorSt) :
    (unlockIfLocked s).needsSpecialCharHandling = s.needsSpecialCharHandling ∧
    (unlockIfLocked s).inserts = s.inserts ∧
    (unlockIfLocked s).doc = s.doc ∧
    (unlockIfLocked s).pendingChars = s.pendingChars := by
  unfold unlockIfLocked
  split <;> simp

theorem mem_of_contains {k : String} (h : specialKeys.contains k = true) :
    k ∈ specialKeys := by
  simpa using h

theorem not_digit_of_mem {k : String} (h : k ∈ specialKeys) :
    (jsLe "1" k && jsLe k "9") = false := by
  have hall : specialKeys.all (fun s => !(jsLe "1" s && jsLe s "9")) = true := by
    decide
  have hk := List.all_eq_true.mp hall k h
  simp only [Bool.not_eq_true'] at hk
  exact hk

theorem ne_enter_of_mem {k : String} (h : k ∈ specialKeys) : k ≠ "Enter" := by
  have hall : specialKeys.all (fun s => !(decide (s = "Enter"))) = true := by
    decide
  simpa using List.all_eq_true.mp hall k h

theorem ne_backspace_of_mem {k : String} (h : k ∈ specialKeys) :
    k ≠ "Backspace" := by
  have hall : specialKeys.all (fun s => !(decide (s = "Backspace"))) = true := by
    decide
  simpa using List.all_eq_true.mp hall k h

theorem contentKey_ne_titleKey (id : String) : contentKey id ≠ titleKey id := by
  intro h
  have h2 := congrArg String.length h
  rw [contentKey, titleKey, String.length_append, String.length_append] at h2
  have e1 : ("note_content_" : String).length = 13 := rfl
  have e2 : ("note_title_" : String).length = 11 := rfl
  rw [e1, e2] at h2
  omega

theorem init_prefers_mirror (st : SessionSt) (n : NoteRec) (c : String)
    (hnote : st.note = some n) (hid : jsTruthy n.id = true)
    (hlook : storeGet st.store (contentKey (n.id.getD "")) = some c)
    (hc : c ≠ "") :
    (initLocalContent st).localContent = c ∧
    (c ≠ n.content → (initLocalContent st).hasLocalChanges = true) := by
  unfold initLocalContent
  rw [hnote]
  simp only [hid, if_true, hlook]
  by_cases hcc : c = n.content <;>
    cases hT : storeGet st.store (titleKey (n.id.getD "")) <;>
      simp_all <;> split_ifs <;> simp_all

/-
Claim theorems.
-/

/-- Claim C1, counterexample: the claim asserts the lock never remains true
longer than a bounded grace period even if the composition-end event never
fires.  On the code this is false: after a composition start with no end
event, `isComposing` stays true, so the watchdog condition
`isEditorLocked && !isComposing` never holds and the lock survives any
number of watchdog ticks (here ten, i.e. two seconds at the 200ms
interval). -/
theorem C1_counterexample :
    (runEditor editorInit
      (EditorEv.compStart :: List.replicate 10 EditorEv.tick)).isEditorLocked
      = true := by
  decide

/-- Claim C1, amended: after a composition-end event the lock is false
immediately (hence within one watchdog interval), and the watchdog tick
forces the lock to false whenever the tracked composing flag is off; if the
end event never fires the tracked flag stays on and the watchdog does not
release the lock. -/
theorem C1_lock_release (st : EditorSt) (now : Nat) :
    (editorStep st (EditorEv.compEnd now)).isEditorLocked = false ∧
    (st.isComposing = false →
      (editorStep st EditorEv.tick).isEditorLocked = false) := by
  constructor
  · rfl
  · intro h
    show (safetyTick st).isEditorLocked = false
    unfold safetyTick
    split <;> simp_all

/-- Witness for C1 at a locked state with the composing flag off. -/
theorem C1_lock_release_witness :
    (editorStep watchSt (EditorEv.compEnd 42)).isEditorLocked = false ∧
    (editorStep watchSt EditorEv.tick).isEditorLocked = false :=
  ⟨(C1_lock_release watchSt 42).1, (C1_lock_release watchSt 42).2 rfl⟩

/-- Claim C2, counterexample: the claim asserts that exactly one insertion
of the buffered text appears in the final document for every completed
composition with captured trigger characters.  With a buffered `#` the code
performs no insertion at all: after the composition ends, the input handler
maps `#` to `handleMarkdownCommand "#"` which only refreshes the view, and
the observer then skips, so the document is unchanged and zero `insertText`
dispatches occur. -/
theorem C2_counterexample :
    (runEditor hashSt [EditorEv.compEnd 1000, EditorEv.input 1010,
      EditorEv.mutation 1100 true]).inserts = 0 ∧
    (runEditor hashSt [EditorEv.compEnd 1000, EditorEv.input 1010,
      EditorEv.mutation 1100 true]).doc = "abc" := by
  decide

/-- Claim C2, amended: across the direct input handler followed by the
mutation-observer fallback, at most one `insertText` dispatch occurs; none
occurs when the buffer lacks a slash (only `/` is ever replayed, as a single
slash, not the full buffered text); and exactly one slash is appended when a
slash replay is pending and the character before the selection is not
already a slash — the pending-flag reset and the document-state check
prevent the observer from duplicating the insert. -/
theorem C2_replay_once (st : EditorSt) (now1 now2 : Nat) (ht : Bool) :
    (observerCallback (handleInput st now1) now2 ht).inserts ≤ st.inserts + 1 ∧
    (containsChar st.pendingChars '/' = false →
      (observerCallback (handleInput st now1) now2 ht).inserts = st.inserts) ∧
    (st.needsSpecialCharHandling = true →
      containsChar st.pendingChars '/' = true →
      textBefore st.doc ≠ "/" →
      (observerCallback (handleInput st now1) now2 ht).inserts =
        st.inserts + 1 ∧
      (observerCallback (handleInput st now1) now2 ht).doc =
        st.doc ++ "/") := by
  by_cases hA : st.needsSpecialCharHandling = true
  · by_cases hP : st.pendingChars = ""
    · have hS0 : containsChar st.pendingChars '/' = false := by
        rw [hP]; decide
      have hI : handleInput st now1 = unlockIfLocked st := by
        simp [handleInput, hP]
      have hW := unlock_fields st
      have hkey : (observerCallback (handleInput st now1) now2 ht).inserts =
          st.inserts ∧
          (observerCallback (handleInput st now1) now2 ht).doc = st.doc := by
        rw [hI]
        unfold observerCallback
        rw [hW.1, hA, hW.2.2.2, hP]
        split_ifs <;> simp_all [containsChar]
      refine ⟨?_, fun _ => hkey.1, fun _ hs _ => ?_⟩
      · rw [hkey.1]; exact Nat.le_succ _
      · rw [hP] at hs; exact absurd hs (by decide)
    · have hI : handleInput st now1 =
          unlockIfLocked { processPendingChars st with
                           needsSpecialCharHandling := false,
                           pendingChars := "" } := by
        simp [handleInput, hA, hP]
      have hW := unlock_fields { processPendingChars st with
                                 needsSpecialCharHandling := false,
                                 pendingChars := "" }
      have h2 : (handleInput st now1).needsSpecialCharHandling = false := by
        rw [hI, hW.1]
      have h3 : (handleInput st now1).inserts =
          (processPendingChars st).inserts := by
        rw [hI, hW.2.1]
      have h4 : (handleInput st now1).doc = (processPendingChars st).doc := by
        rw [hI, hW.2.2.1]
      have hobs : observerCallback (handleInput st now1) now2 ht =
          handleInput st now1 := observer_skip _ _ _ h2
      rw [hobs]
      by_cases hS : containsChar st.pendingChars '/' = true
      · by_cases hB : textBefore st.doc = "/"
        · have hCst : processPendingChars st = st := by
            unfold processPendingChars
            rw [if_pos hS]
            simp [handleMarkdownCommand, hB]
          rw [hCst] at h3 h4
          exact ⟨by rw [h3]; exact Nat.le_succ _, fun _ => h3,
            fun _ _ hb => absurd hB hb⟩
        · have hCins : processPendingChars st =
              { st with doc := st.doc ++ "/", inserts := st.inserts + 1 } := by
            unfold processPendingChars
            rw [if_pos hS]
            simp [handleMarkdownCommand, hB]
          rw [hCins] at h3 h4
          refine ⟨by rw [h3], fun hns => absurd hS (by simp [hns]),
            fun _ _ _ => ⟨h3, h4⟩⟩
      · have hS' : containsChar st.pendingChars '/' = false := by
          simpa using hS
        have hCst : processPendingChars st = st := by
          unfold processPendingChars
          rw [if_neg (by simp [hS'])]
          split_ifs <;> simp [cmd_not_slash]
        rw [hCst] at h3 h4
        exact ⟨by rw [h3]; exact Nat.le_succ _, fun _ => h3,
          fun _ hs _ => absurd hs hS⟩
  · have hA' : st.needsSpecialCharHandling = false := by simpa using hA
    have hI : handleInput st now1 = unlockIfLocked st := by
      simp [handleInput, hA']
    have hW := unlock_fields st
    have hW2 : (handleInput st now1).needsSpecialCharHandling = false := by
      rw [hI, hW.1, hA']
    have hW3 : (handleInput st now1).inserts = st.inserts := by
      rw [hI, hW.2.1]
    have hobs : observerCallback (handleInput st now1) now2 ht =
        handleInput st now1 := observer_skip _ _ _ hW2
    rw [hobs]
    exact ⟨by rw [hW3]; exact Nat.le_succ _, fun _ => hW3,
      fun hns _ _ => absurd hns (by simp [hA'])⟩

/-- Witness for C2 at a state with a pending slash replay over a document
not ending in a slash. -/
theorem C2_replay_once_witness :
    (observerCallback (handleInput replaySt 5) 1000 true).inserts ≤
      replaySt.inserts + 1 ∧
    (observerCallback (handleInput replaySt 5) 1000 true).inserts =
      replaySt.inserts + 1 ∧
    (observerCallback (handleInput replaySt 5) 1000 true).doc =
      replaySt.doc ++ "/" :=
  ⟨(C2_replay_once replaySt 5 1000 true).1,
   ((C2_replay_once replaySt 5 1000 true).2.2 rfl (by decide) (by decide)).1,
   ((C2_replay_once replaySt 5 1000 true).2.2 rfl (by decide) (by decide)).2⟩

/-- Claim C3, counterexample: the claim asserts a fixed backoff delay
between the attempts of a save whose persistence call always fails.  On the
code an always-failing save is indeed attempted exactly three times, but
with no delay between attempts and without the retries-exhausted toast:
`saveNote` catches its own errors and returns false instead of throwing, so
`saveNoteWithRetry` falls straight through its loop, and only the per-attempt
error toast of `saveNote` is ever shown. -/
theorem C3_counterexample :
    persistCount (saveNoteWithRetry saveSt failEnv 3).2.2 = 3 ∧
    sleepCount (saveNoteWithRetry saveSt failEnv 3).2.2 = 0 ∧
    errToastCount (saveNoteWithRetry saveSt failEnv 3).2.2 = 3 ∧
    exhaustedToastCount (saveNoteWithRetry saveSt failEnv 3).2.2 = 0 ∧
    (saveNoteWithRetry saveSt failEnv 3).1 = false ∧
    (saveNoteWithRetry saveSt failEnv 3).2.1.hasLocalChanges = true := by
  decide

/-- Claim C3, amended: a save whose persistence call always fails is
attempted exactly the configured maximum number of times (default three)
back to back with no backoff delay in between, each attempt surfaces the
error toast of `saveNote` itself (the dedicated retries-exhausted toast is
unreachable), the overall result is false, and the session state — in
particular the dirty flag `hasLocalChanges` — is left untouched, so a later
manual save can retry. -/
theorem C3_retry_attempts (st : SessionSt) (n : NoteRec) (env : SaveEnv)
    (hnote : st.note = some n) (hid : jsTruthy n.id = true)
    (henv : env.persistOk = false) :
    (saveNoteWithRetry st env 3).1 = false ∧
    (saveNoteWithRetry st env 3).2.1 = st ∧
    persistCount (saveNoteWithRetry st env 3).2.2 = 3 ∧
    sleepCount (saveNoteWithRetry st env 3).2.2 = 0 ∧
    errToastCount (saveNoteWithRetry st env 3).2.2 = 3 ∧
    exhaustedToastCount (saveNoteWithRetry st env 3).2.2 = 0 := by
  have hs : saveNote st env =
      (SaveRes.ok false, st,
        [(if env.isNew then SaveEff.persistCreate st.localContent st.localTitle
          else SaveEff.persistUpdate st.localContent st.localTitle),
         SaveEff.toastError]) := by
    unfold saveNote
    rw [hnote]
    simp [hid, henv]
  have h3 : saveNoteWithRetry st env 3 =
      (false, st,
        [(if env.isNew then SaveEff.persistCreate st.localContent st.localTitle
          else SaveEff.persistUpdate st.localContent st.localTitle),
         SaveEff.toastError] ++
        ([(if env.isNew then SaveEff.persistCreate st.localContent st.localTitle
           else SaveEff.persistUpdate st.localContent st.localTitle),
          SaveEff.toastError] ++
         ([(if env.isNew then SaveEff.persistCreate st.localContent st.localTitle
            else SaveEff.persistUpdate st.localContent st.localTitle),
           SaveEff.toastError] ++ []))) := by
    simp [saveNoteWithRetry, hs]
  rw [h3]
  cases henew : env.isNew <;>
    simp [persistCount, sleepCount, errToastCount, exhaustedToastCount]

/-- Witness for C3 on a dirty session over a persisted note with an
always-failing persistence call. -/
theorem C3_retry_attempts_witness :
    (saveNoteWithRetry saveSt failEnv 3).1 = false ∧
    (saveNoteWithRetry saveSt failEnv 3).2.1 = saveSt ∧
    persistCount (saveNoteWithRetry saveSt failEnv 3).2.2 = 3 ∧
    sleepCount (saveNoteWithRetry saveSt failEnv 3).2.2 = 0 ∧
    errToastCount (saveNoteWithRetry saveSt failEnv 3).2.2 = 3 ∧
    exhaustedToastCount (saveNoteWithRetry saveSt failEnv 3).2.2 = 0 :=
  C3_retry_attempts saveSt noteRec1 failEnv rfl (by decide) rfl

/-- Claim C4: any nonempty burst of `onNoteChange` requests whose
consecutive gaps all stay inside the fixed 500ms debounce window produces
exactly one run of the debounced body — one persistence call — and it
carries the data of the last request.  The debounce timer itself lives in
the `use-debounce` package, modelled by `debouncedRuns` from the spec. -/
theorem C4_debounce_trailing (c : Nat × String) (cs : List (Nat × String))
    (h : List.Chain' (fun a b => b.1 < a.1 + 500) (c :: cs)) :
    debouncedRuns 500 (c :: cs) =
      [((c :: cs).getLast (List.cons_ne_nil c cs)).2] := by
  induction cs generalizing c with
  | nil => rfl
  | cons c2 rest ih =>
    have h12 : c2.1 < c.1 + 500 := (List.chain'_cons.mp h).1
    have htail : List.Chain' (fun a b => b.1 < a.1 + 500) (c2 :: rest) :=
      (List.chain'_cons.mp h).2
    obtain ⟨t1, d1⟩ := c
    obtain ⟨t2, d2⟩ := c2
    unfold debouncedRuns
    rw [if_pos h12, ih ⟨t2, d2⟩ htail]
    congr 1

/-- Witness for C4 on three requests 100ms apart. -/
theorem C4_debounce_trailing_witness :
    debouncedRuns 500 [(0, "a"), (100, "b"), (200, "c")] = ["c"] := by
  have h := C4_debounce_trailing (0, "a") [(100, "b"), (200, "c")]
    (by norm_num [List.chain'_cons])
  simpa using h

/-- Claim C5, counterexample: the claim asserts the session prefers the
durable mirror whenever one exists and differs from the server content, and
that reopening recovers the last edit.  When the last edit empties the
note, the mirror entry is the empty string; the recovery guard
`savedContent && savedContent !== note.content` treats it as absent, so the
reopened session shows the server content `"hello"`, not the last edit
`""`, and is not marked dirty — even though a mirror entry exists and
differs. -/
theorem C5_counterexample :
    storeGet (onEditorChange mirrorSt "").store (contentKey "n1") =
      some "" ∧
    (initLocalContent (onEditorChange mirrorSt "")).localContent = "hello" ∧
    (initLocalContent (onEditorChange mirrorSt "")).hasLocalChanges =
      false := by
  decide

/-- Claim C5, amended: every accepted content edit on a note with a truthy
id writes the draft to the durable mirror keyed by the note id, and when
the note is reopened the session prefers the mirror over the
server-provided content whenever the mirror is non-empty (JavaScript-truthy)
and differs from it, marking the session dirty; reopening after an abrupt
termination therefore recovers content equal to the last edit provided that
edit is non-empty. -/
theorem C5_mirror_recovery (st : SessionSt) (n : NoteRec) (c : String)
    (hnote : st.note = some n) (hid : jsTruthy n.id = true) (hc : c ≠ "") :
    storeGet (onEditorChange st c).store (contentKey (n.id.getD "")) =
      some c ∧
    (initLocalContent (onEditorChange st c)).localContent = c ∧
    (c ≠ n.content →
      (initLocalContent (onEditorChange st c)).hasLocalChanges = true) := by
  have hioc : onEditorChange st c =
      { st with localContent := c, hasLocalChanges := true,
                store := storeSet st.store (contentKey (n.id.getD "")) c } := by
    simp [onEditorChange, hnote, hid]
  rw [hioc]
  have hlook : storeGet
      (storeSet st.store (contentKey (n.id.getD "")) c)
      (contentKey (n.id.getD "")) = some c := by
    simp [storeGet, storeSet, List.lookup]
  have hmain := init_prefers_mirror
    { st with localContent := c, hasLocalChanges := true,
              store := storeSet st.store (contentKey (n.id.getD "")) c }
    n c hnote hid hlook hc
  exact ⟨hlook, hmain.1, hmain.2⟩

/-- Witness for C5: editing `noteRec1` to a non-empty draft that differs
from the server content and reopening recovers the draft and marks the
session dirty. -/
theorem C5_mirror_recovery_witness :
    storeGet (onEditorChange mirrorSt "draft2").store (contentKey "n1") =
      some "draft2" ∧
    (initLocalContent (onEditorChange mirrorSt "draft2")).localContent =
      "draft2" ∧
    (initLocalContent (onEditorChange mirrorSt "draft2")).hasLocalChanges =
      true :=
  ⟨(C5_mirror_recovery mirrorSt noteRec1 "draft2" rfl (by decide)
      (by decide)).1,
   (C5_mirror_recovery mirrorSt noteRec1 "draft2" rfl (by decide)
      (by decide)).2.1,
   (C5_mirror_recovery mirrorSt noteRec1 "draft2" rfl (by decide)
      (by decide)).2.2 (by decide)⟩

/-- Claim C6: a keystroke is captured into the pending-character buffer —
appended, with the native keystroke suppressed by `preventDefault` — if and
only if a composition is active (the tracked flag or the native event flag)
and the key belongs to the fixed trigger set; digits 1-9, Enter, Backspace
and every other key outside the set are never captured during
composition. -/
theorem C6_capture_iff (st : EditorSt) (key : String) (native : Bool)
    (now : Nat) :
    ((handleKeyDown st key native now).st.pendingChars =
        st.pendingChars ++ key ∧
      (handleKeyDown st key native now).prevented = true) ↔
    ((st.isComposing || native) = true ∧
      specialKeys.contains key = true) := by
  simp only [handleKeyDown]
  split_ifs with h1 h2 h3 h4 h5 h6 h7 h8 h9
  · refine iff_of_false (by simp) ?_
    rintro ⟨hc, hm⟩
    have hd := not_digit_of_mem (mem_of_contains hm)
    simp only [Bool.and_eq_true] at h1
    rw [h1.1.2, h1.2] at hd
    simp at hd
  · refine iff_of_false (by simp) ?_
    rintro ⟨_, hm⟩
    simp only [Bool.and_eq_true, decide_eq_true_eq] at h2
    exact ne_enter_of_mem (mem_of_contains hm) h2.1
  · refine iff_of_false (by simp) ?_
    rintro ⟨_, hm⟩
    simp only [Bool.and_eq_true, decide_eq_true_eq] at h3
    exact ne_enter_of_mem (mem_of_contains hm) h3.1.1.1
  · refine iff_of_false (by simp) ?_
    rintro ⟨_, hm⟩
    simp only [Bool.and_eq_true, decide_eq_true_eq] at h4
    exact ne_backspace_of_mem (mem_of_contains hm) h4.1.1.1
  · refine iff_of_false (by simp) ?_
    rintro ⟨_, hm⟩
    simp only [Bool.and_eq_true, decide_eq_true_eq] at h5
    exact ne_backspace_of_mem (mem_of_contains hm) h5.1.1
  · simp only [Bool.and_eq_true] at h6
    exact iff_of_true ⟨rfl, rfl⟩ ⟨h6.1, h6.2⟩
  · simp only [Bool.and_eq_true] at h6
    exact iff_of_true ⟨rfl, rfl⟩ ⟨h6.1, h6.2⟩
  · simp only [Bool.and_eq_true, Bool.not_eq_true', decide_eq_true_eq] at h8
    refine iff_of_false ?_ ?_
    · rintro ⟨hpend, _⟩
      rw [h8.2] at hpend
      exact ne_self_append _ _ (by decide) hpend
    · rintro ⟨hc, _⟩
      rw [h8.1.1, h8.1.2] at hc
      simp at hc
  · simp only [Bool.and_eq_true, Bool.not_eq_true', decide_eq_true_eq] at h8
    refine iff_of_false (by simp) ?_
    rintro ⟨hc, _⟩
    rw [h8.1.1, h8.1.2] at hc
    simp at hc
  · refine iff_of_false (by simp) ?_
    rintro ⟨hc, hm⟩
    exact h6 (by rw [hc, hm]; rfl)

/-- Witness for C6: a slash typed during a tracked composition is appended
to the buffer and the native keystroke is suppressed. -/
theorem C6_capture_iff_witness :
    (handleKeyDown composingSt "/" false 7).st.pendingChars =
      composingSt.pendingChars ++ "/" ∧
    (handleKeyDown composingSt "/" false 7).prevented = true :=
  (C6_capture_iff composingSt "/" false 7).mpr ⟨rfl, by decide⟩

/-- Claim C7, counterexample: the claim asserts the watchdog clears the
pending-character buffer when it forces the lock to false.  On the code the
watchdog body only flips `isEditorLocked`: on a locked state with the
composing flag off and a buffered slash, a tick releases the lock but
leaves the buffer intact (and there is no elapsed-time threshold in the
condition at all). -/
theorem C7_counterexample :
    (safetyTick watchSt).isEditorLocked = false ∧
    (safetyTick watchSt).pendingChars ≠ "" := by
  decide

/-- Claim C7, amended: whenever the watchdog timer fires while the lock is
true and the tracked composing flag is false, it forces the lock to false
(with no elapsed-time check); it leaves the pending-character buffer
unchanged, and it never synthesizes or inserts content — the document and
the insertion counter are untouched by every tick. -/
theorem C7_tick_only_unlocks (st : EditorSt) :
    (safetyTick st).pendingChars = st.pendingChars ∧
    (safetyTick st).doc = st.doc ∧
    (safetyTick st).inserts = st.inserts ∧
    (st.isEditorLocked = true → st.isComposing = false →
      (safetyTick st).isEditorLocked = false) := by
  unfold safetyTick
  split <;> simp_all

/-- Witness for C7 at a locked state outside composition. -/
theorem C7_tick_only_unlocks_witness :
    (safetyTick watchSt).pendingChars = watchSt.pendingChars ∧
    (safetyTick watchSt).doc = watchSt.doc ∧
    (safetyTick watchSt).inserts = watchSt.inserts ∧
    (safetyTick watchSt).isEditorLocked = false :=
  ⟨(C7_tick_only_unlocks watchSt).1, (C7_tick_only_unlocks watchSt).2.1,
   (C7_tick_only_unlocks watchSt).2.2.1,
   (C7_tick_only_unlocks watchSt).2.2.2 rfl rfl⟩

/-- Claim C8, counterexample: the claim asserts that Backspace during a
composition with a non-empty buffer suppresses the native keystroke.  On
the code the handler removes the last buffered character but deliberately
does not call `preventDefault` (the source comments the branch with "do not
block the default behaviour"), so the delete still propagates to the text
engine. -/
theorem C8_counterexample :
    (handleKeyDown composingSt "Backspace" false 5).prevented = false ∧
    (handleKeyDown composingSt "Backspace" false 5).st.pendingChars =
      "" := by
  decide

/-- Claim C8, amended: when Backspace is pressed while a composition is
active (tracked or native flag) and the pending-character buffer is
non-empty, the last buffered character is removed, and the native keystroke
is not suppressed — the delete also propagates to the text engine. -/
theorem C8_backspace_discard (st : EditorSt) (native : Bool) (now : Nat)
    (hc : (st.isComposing || native) = true) (hp : st.pendingChars ≠ "") :
    handleKeyDown st "Backspace" native now =
      ⟨{ st with lastKeyPressTime := now,
                 pendingChars := dropLastStr st.pendingChars }, false⟩ := by
  have hlen : 0 < st.pendingChars.length := length_pos_of_ne_empty _ hp
  have h9 : jsLe "Backspace" "9" = false := by decide
  have hbe : ("Backspace" : String) ≠ "Enter" := by decide
  cases hcomp : st.isComposing <;> cases hnat : native <;>
    simp_all [handleKeyDown, h9, hbe, hlen]

/-- Witness for C8 at a composing state with a buffered slash. -/
theorem C8_backspace_discard_witness :
    handleKeyDown composingSt "Backspace" false 5 =
      ⟨{ composingSt with lastKeyPressTime := 5,
                          pendingChars := dropLastStr
                            composingSt.pendingChars }, false⟩ :=
  C8_backspace_discard composingSt false 5 rfl (by decide)

/-- Claim C9: when the active note has no id (absent note or
JavaScript-falsy id), `saveNote` returns false immediately: no persistence
call is issued, no toast is shown, and the session state — dirty flag,
local draft and durable mirror included — is completely unchanged. -/
theorem C9_saveNote_no_id (st : SessionSt) (env : SaveEnv)
    (h : activeNoteIdFalsy st = true) :
    saveNote st env = (SaveRes.ok false, st, []) := by
  unfold saveNote
  unfold activeNoteIdFalsy at h
  cases hnote : st.note with
  | none => simp
  | some n =>
    rw [hnote] at h
    simp at h
    simp [h]

/-- Witness for C9 on a session without an active note. -/
theorem C9_saveNote_no_id_witness :
    saveNote noNoteSt okEnv = (SaveRes.ok false, noNoteSt, []) :=
  C9_saveNote_no_id noNoteSt okEnv rfl

/-- Claim C10: an editor change notification delivered while the tracked
composition flag is on is dropped outright — `handleEditorChange` returns
without invoking `onEditorChange` and without queueing a deferred frame
callback, so neither the in-memory draft nor the durable mirror is updated
from mid-composition change events. -/
theorem C10_change_dropped (st : EditorSt) (now : Nat)
    (h : st.isComposing = true) :
    handleEditorChange st now = ChangeDisposition.dropped := by
  simp [handleEditorChange, h]

/-- Witness for C10 at a composing state. -/
theorem C10_change_dropped_witness :
    handleEditorChange composingSt 0 = ChangeDisposition.dropped :=
  C10_change_dropped composingSt 0 rfl

end Jjt
